import Mathlib

/-!
Verification of the Contact-Manager core against its source.

Shallow embedding of:
  * the share-code generator (`src/utils/userValidator.js`, second module:
    `generateCode`, `generateUniqueCode`, `isValidCode`, `generateWithPrefix`),
  * the share-code exchange / access-grant protocol
    (`src/models/User.js`: `generateShareCode`, `shareWith`, `accessViaCode`),
  * the default-list lifecycle hook (`src/models/Contact.js`, post-save),
  * list item append / update (`src/models/List.js`: `addItem`, `updateItem`).

Codes and other JS strings are modelled as `List Char`; timestamps as `Int`
milliseconds (JS `Date` values); Mongo ObjectIds as `Nat`.  `Math.random`
draws are modelled as streams of indices into the fixed alphabets
(`Nat → Fin 21` for consonant draws, `Nat → Fin 5` for vowel draws).
-/

namespace ContactManager

/-! ## Code generator (share-code module of `src/utils/userValidator.js`) -/

/-- `const consonants = 'BCDFGHJKLMNPQRSTVWXYZ'` (21 symbols). -/
def consonants : List Char :=
  ['B','C','D','F','G','H','J','K','L','M','N','P','Q','R','S','T','V','W','X','Y','Z']

/-- `const vowels = 'AEIOU'` (5 symbols). -/
def vowels : List Char := ['A','E','I','O','U']

/-- `generateCode()`: one CVCVC code.  `k` is the attempt index; the five
`Math.floor(Math.random() * len)` draws of attempt `k` are the values of the
draw streams at positions `5*k .. 5*k+4`. -/
def generateCode (rc : Nat → Fin 21) (rv : Nat → Fin 5) (k : Nat) : List Char :=
  [ consonants.get ⟨(rc (5 * k)).val, (rc (5 * k)).isLt.trans_eq rfl⟩
  , vowels.get ⟨(rv (5 * k + 1)).val, (rv (5 * k + 1)).isLt.trans_eq rfl⟩
  , consonants.get ⟨(rc (5 * k + 2)).val, (rc (5 * k + 2)).isLt.trans_eq rfl⟩
  , vowels.get ⟨(rv (5 * k + 3)).val, (rv (5 * k + 3)).isLt.trans_eq rfl⟩
  , consonants.get ⟨(rc (5 * k + 4)).val, (rc (5 * k + 4)).isLt.trans_eq rfl⟩ ]

/-- The error message thrown by `generateUniqueCode` when the attempt
bound is exceeded. -/
def exhaustedMsg : String := "Failed to generate unique code after maximum attempts"

/-- The loop body of `generateUniqueCode(checkExistence)`
(`src/utils/userValidator.js` lines 317-339): while not unique and
`attempts < 100`, generate a candidate, ask the store, count the attempt.
Returns the outcome together with the final value of `attempts`
(= the number of `generateCode` calls made). -/
def generateUniqueCodeAux (check : List Char → Bool) (rc : Nat → Fin 21)
    (rv : Nat → Fin 5) (attempts : Nat) : Except String (List Char) × Nat :=
  if attempts < 100 then
    let code := generateCode rc rv attempts
    if check code then
      generateUniqueCodeAux check rc rv (attempts + 1)
    else
      (Except.ok code, attempts + 1)
  else
    (Except.error exhaustedMsg, attempts)
termination_by 100 - attempts

/-- `generateUniqueCode(checkExistence)`: run the bounded retry loop from
`attempts = 0`. -/
def generateUniqueCode (check : List Char → Bool) (rc : Nat → Fin 21)
    (rv : Nat → Fin 5) : Except String (List Char) × Nat :=
  generateUniqueCodeAux check rc rv 0

/-- The unbounded retry loop of `UserSchema.methods.generateShareCode`
(`src/models/User.js` lines 255-280): `while (!isUnique) { ... }` with no
attempt counter.  `fuel` is an observation bound, not part of the source:
`none` means the loop is still running after `fuel` iterations; `some code`
means it exited with `code` within `fuel` iterations.  The source has no
failure outcome at all. -/
def generateShareCodeLoop (check : List Char → Bool) (rc : Nat → Fin 21)
    (rv : Nat → Fin 5) (attempt : Nat) : Nat → Option (List Char)
  | 0 => none
  | fuel + 1 =>
    let code := generateCode rc rv attempt
    if check code then
      generateShareCodeLoop check rc rv (attempt + 1) fuel
    else
      some code

/-- `isValidCode(code)` (`src/utils/userValidator.js` lines 361-376):
length 5, then position-wise membership of the uppercased code in the
CVCVC alphabets. -/
def isValidCode (code : List Char) : Bool :=
  if code.length ≠ 5 then
    false
  else
    let u := code.map Char.toUpper
    consonants.contains (u.getD 0 ' ') &&
    vowels.contains (u.getD 1 ' ') &&
    consonants.contains (u.getD 2 ' ') &&
    vowels.contains (u.getD 3 ' ') &&
    consonants.contains (u.getD 4 ' ')

/-- The fill loop of `generateWithPrefix`: for `i` running over `n` further
indices, even `i` draws a consonant, odd `i` a vowel. -/
def fillAlternating (rc : Nat → Fin 21) (rv : Nat → Fin 5) : Nat → Nat → List Char
  | _, 0 => []
  | i, n + 1 =>
    (if i % 2 = 0 then
      consonants.get ⟨(rc i).val, (rc i).isLt.trans_eq rfl⟩
    else
      vowels.get ⟨(rv i).val, (rv i).isLt.trans_eq rfl⟩)
    :: fillAlternating rc rv (i + 1) n

/-- `generateWithPrefix(prefix)` (`src/utils/userValidator.js` lines
413-432): `remainingLength = 5 - prefix.length` (a JS number, so computed in
`Int`); throw if `< 3`; otherwise uppercase the prefix and fill the rest
alternating consonant/vowel starting from a consonant. -/
def generateWithPrefix (pfx : List Char) (rc : Nat → Fin 21)
    (rv : Nat → Fin 5) : Except String (List Char) :=
  let remainingLength : Int := 5 - (pfx.length : Int)
  if remainingLength < 3 then
    Except.error "Prefix too long, must leave at least 3 characters"
  else
    Except.ok (pfx.map Char.toUpper ++ fillAlternating rc rv 0 (5 - pfx.length))

/-! ## Accounts and the sharing protocol (`src/models/User.js`)

The persistence store is modelled as a `World`: the list of user documents.
`findOne({shareCode: c})` is a first-match scan; `save()` replaces the
document with the same id.  Timestamp fields (`sharedAt`, `accessedAt`)
play no role in any claim and are omitted from the embedded records. -/

/-- Access level of a `sharedWith` entry (`enum: ['view', 'edit']`). -/
inductive AccessLevel where
  | view
  | edit
deriving DecidableEq, Repr

/-- One entry of `UserSchema.sharedWith`. -/
structure ShareGrant where
  userId : Nat
  accessLevel : AccessLevel
deriving DecidableEq, Repr

/-- One entry of `UserSchema.accessingViaCode`. -/
structure AccessRecord where
  code : List Char
  ownerId : Nat
deriving DecidableEq, Repr

/-- A user document, restricted to the sharing-relevant fields. -/
structure User where
  id : Nat
  shareCode : Option (List Char)
  sharedWith : List ShareGrant
  accessingViaCode : List AccessRecord
deriving DecidableEq, Repr

/-- The store's `users` collection. -/
abbrev World := List User

/-- `User.findOne({ shareCode: c })`: first document whose share code is `c`. -/
def findByShareCode (w : World) (c : List Char) : Option User :=
  List.find? (fun u => u.shareCode == some c) w

/-- `User.findById(i)` (first document with id `i`). -/
def getUser (w : World) (i : Nat) : Option User :=
  List.find? (fun u => u.id == i) w

/-- `doc.save()`: replace the stored document with id `u.id` by `u`. -/
def updateUser (w : World) (u : User) : World :=
  List.map (fun x => if x.id == u.id then u else x) w

/-- `UserSchema.methods.generateShareCode` run against world `w`: the
unbounded uniqueness-retry loop with `findOne({shareCode: code})` as the
existence check (observed through `fuel` iterations). -/
def generateShareCode (w : World) (rc : Nat → Fin 21) (rv : Nat → Fin 5)
    (fuel : Nat) : Option (List Char) :=
  generateShareCodeLoop (fun c => (findByShareCode w c).isSome) rc rv 0 fuel

/-- `UserSchema.methods.shareWith(targetUserId, accessLevel)`
(`src/models/User.js` lines 283-303), run by document `owner` against
world `w`.  If the owner has no share code yet it runs `generateShareCode`
(+ save); then it appends a `ShareGrant` for `targetUserId` unless one is
already present, and saves.  Returns the updated world, the updated owner
document, and the owner's code; `none` only when the code-generation loop
is still running after `fuel` iterations (the source would simply not have
returned yet). -/
def shareWith (w : World) (owner : User) (targetUserId : Nat)
    (accessLevel : AccessLevel) (rc : Nat → Fin 21) (rv : Nat → Fin 5)
    (fuel : Nat) : Option (World × User × List Char) :=
  let step1 : Option (World × User × List Char) :=
    match owner.shareCode with
    | some c => some (w, owner, c)
    | none =>
      match generateShareCode w rc rv fuel with
      | none => none
      | some c =>
        let owner1 : User := { owner with shareCode := some c }
        some (updateUser w owner1, owner1, c)
  match step1 with
  | none => none
  | some (w1, owner1, c) =>
    let alreadyShared := owner1.sharedWith.any (fun share => share.userId == targetUserId)
    if alreadyShared then
      some (w1, owner1, c)
    else
      let owner2 : User :=
        { owner1 with sharedWith := owner1.sharedWith ++ [⟨targetUserId, accessLevel⟩] }
      some (updateUser w1 owner2, owner2, c)

/-- `UserSchema.methods.accessViaCode(code)` (`src/models/User.js` lines
306-330), run by document `requester` against world `w`.  Returns the world
after the call, the requester document after the call, and the outcome:
the resolved owner document, or the `CodeNotFound` error thrown before any
mutation. -/
def accessViaCode (w : World) (requester : User) (code : List Char)
    (rc : Nat → Fin 21) (rv : Nat → Fin 5) (fuel : Nat) :
    World × User × Except String User :=
  let up := code.map Char.toUpper
  match findByShareCode w up with
  | none => (w, requester, Except.error "Invalid share code")
  | some owner =>
    let alreadyAccessing := requester.accessingViaCode.any (fun a => a.code == up)
    let requester1 :=
      if alreadyAccessing then requester
      else { requester with accessingViaCode := requester.accessingViaCode ++ [⟨up, owner.id⟩] }
    let w1 := if alreadyAccessing then w else updateUser w requester1
    match shareWith w1 owner requester.id AccessLevel.view rc rv fuel with
    | none =>
      -- unreachable: `owner` was found by share code, so it has one and
      -- `shareWith` never enters the code-generation loop
      (w1, requester1, Except.error "unreachable")
    | some (w2, owner2, _) => (w2, requester1, Except.ok owner2)

/-! ## Lists and items (`src/models/List.js`) -/

/-- Item status enum (`['pending', 'in-progress', 'completed', 'cancelled']`). -/
inductive Status where
  | pending
  | inProgress
  | completed
  | cancelled
deriving DecidableEq, Repr

/-- Alarm channel enum (`['notification', 'email', 'sms']`). -/
inductive AlarmChannel where
  | notification
  | email
  | sms
deriving DecidableEq, Repr

/-- An alarm subdocument of a list item (field `type` renamed `channel`). -/
structure Alarm where
  triggerTime : Int
  channel : AlarmChannel
  message : List Char
  isTriggered : Bool
  triggeredAt : Option Int
deriving DecidableEq, Repr

/-- A list item, restricted to the fields the claims touch (payload blobs
`taskInfo`/`meetingInfo`/`transactionInfo`/`bookingInfo`, attachments and
tags are irrelevant to every claim and omitted). -/
structure Item where
  id : Nat
  title : List Char
  description : List Char
  status : Status
  dueDate : Option Int
  completedAt : Option Int
  alarms : List Alarm
  updatedAt : Int
deriving DecidableEq, Repr

/-- `ListSchema.listType` enum. -/
inductive ListType where
  | task
  | meeting
  | transaction
  | booking
  | custom
deriving DecidableEq, Repr

/-- A list document: identity/display fields, the default-list fields, the
items, and `settings.defaultAlarmTime` (minutes before due date, schema
default 30).  Other settings and the contacts array play no role in any
claim. -/
structure ListDoc where
  id : Nat
  owner : Nat
  listType : ListType
  name : List Char
  description : List Char
  color : List Char
  isDefault : Bool
  contactOwner : Option Nat
  items : List Item
  defaultAlarmTime : Int
deriving DecidableEq, Repr

/-- `ListSchema.methods.addItem(itemData)` (`src/models/List.js` lines
288-308): when `settings.defaultAlarmTime` is truthy (non-zero) and the
item has a due date, push one derived alarm (`dueDate` minus the lead time
in minutes; `Date.setMinutes` arithmetic equals subtracting
`defaultAlarmTime * 60000` ms) onto the supplied alarms, then append the
item and return it. -/
def addItem (l : ListDoc) (itemData : Item) : ListDoc × Item :=
  let itemData :=
    if l.defaultAlarmTime ≠ 0 ∧ itemData.dueDate.isSome then
      { itemData with
        alarms := itemData.alarms ++
          [ { triggerTime := itemData.dueDate.getD 0 - l.defaultAlarmTime * 60000
            , channel := AlarmChannel.notification
            , message := "Reminder: ".toList ++ itemData.title
            , isTriggered := false
            , triggeredAt := none } ] }
    else itemData
  ({ l with items := l.items ++ [itemData] }, itemData)

/-- The update payload of `updateItem`: `Object.assign(item, updateData)`
copies exactly the keys present in `updateData`, so each patchable field is
optional.  Only the fields that can interact with the completion-stamping
rule are modelled. -/
structure ItemPatch where
  title : Option (List Char)
  description : Option (List Char)
  status : Option Status
  dueDate : Option Int
  completedAt : Option Int
deriving DecidableEq, Repr

/-- `Object.assign(item, updateData)`: overwrite each field whose key is
present in the patch. -/
def applyPatch (it : Item) (p : ItemPatch) : Item :=
  let it := match p.title with | some t => { it with title := t } | none => it
  let it := match p.description with | some d => { it with description := d } | none => it
  let it := match p.status with | some s => { it with status := s } | none => it
  let it := match p.dueDate with | some d => { it with dueDate := some d } | none => it
  let it := match p.completedAt with | some c => { it with completedAt := some c } | none => it
  it

/-- `ListSchema.methods.updateItem(itemId, updateData)` (`src/models/List.js`
lines 311-326): find the item (throw `'Item not found'` otherwise), apply
the patch, stamp `updatedAt`, and set `completedAt` to now only when the
patch sets status `'completed'` *and* `completedAt` is still unset. -/
def updateItem (l : ListDoc) (itemId : Nat) (p : ItemPatch) (now : Int) :
    Except String (ListDoc × Item) :=
  match l.items.find? (fun it => it.id == itemId) with
  | none => Except.error "Item not found"
  | some it =>
    let it1 := { applyPatch it p with updatedAt := now }
    let it2 :=
      if p.status = some Status.completed ∧ it1.completedAt = none then
        { it1 with completedAt := some now }
      else it1
    Except.ok
      ({ l with items := l.items.map (fun x => if x.id == itemId then it2 else x) }, it2)

/-! ## Contacts and the default-list lifecycle hook (`src/models/Contact.js`) -/

/-- The `defaultLists` triple of back-references on a contact. -/
structure DefaultLists where
  tasks : Option Nat
  meetings : Option Nat
  transactions : Option Nat
deriving DecidableEq, Repr

/-- A contact document, restricted to the fields the lifecycle hook reads. -/
structure Contact where
  id : Nat
  owner : Nat
  name : List Char
  defaultLists : DefaultLists
deriving DecidableEq, Repr

/-- The default tasks list the hook constructs (`new List({...})`, first
block of the hook body). -/
def defaultTasksList (c : Contact) (nextId : Nat) : ListDoc :=
  { id := nextId, owner := c.owner, listType := ListType.task
  , name := c.name ++ " - Tasks".toList
  , description := "Default tasks list for ".toList ++ c.name
  , color := "#3B82F6".toList, isDefault := true, contactOwner := some c.id
  , items := [], defaultAlarmTime := 30 }

/-- The default meetings list the hook constructs (second block). -/
def defaultMeetingsList (c : Contact) (nextId : Nat) : ListDoc :=
  { id := nextId + 1, owner := c.owner, listType := ListType.meeting
  , name := c.name ++ " - Meetings".toList
  , description := "Default meetings list for ".toList ++ c.name
  , color := "#10B981".toList, isDefault := true, contactOwner := some c.id
  , items := [], defaultAlarmTime := 30 }

/-- The default transactions list the hook constructs (third block). -/
def defaultTransactionsList (c : Contact) (nextId : Nat) : ListDoc :=
  { id := nextId + 2, owner := c.owner, listType := ListType.transaction
  , name := c.name ++ " - Transactions".toList
  , description := "Default transactions list for ".toList ++ c.name
  , color := "#F59E0B".toList, isDefault := true, contactOwner := some c.id
  , items := [], defaultAlarmTime := 30 }

/-- `ContactSchema.post('save')` (`src/models/Contact.js` lines 283-350).

The hook runs four store operations in order: save the tasks list (op 0),
save the meetings list (op 1), save the transactions list (op 2), and the
`updateOne` writing the three back-references (op 3).  `failAt k` is the
store's behaviour on op `k`: `some e` makes it throw `e`.  The try/catch in
the source logs a caught error and falls through to `next()`, so the hook
always completes; the result is the contact document after the hook, the
list documents persisted before any failure, and the error that was caught
and logged (`none` when no op failed).  Fresh list ids are `nextId`,
`nextId + 1`, `nextId + 2`. -/
def contactPostSave (c : Contact) (isNew : Bool) (nextId : Nat)
    (failAt : Nat → Option String) : Contact × List ListDoc × Option String :=
  if isNew ∨ (c.defaultLists.tasks = none ∧ c.defaultLists.meetings = none ∧
      c.defaultLists.transactions = none) then
    let tasksList := defaultTasksList c nextId
    match failAt 0 with
    | some e => (c, [], some e)
    | none =>
      let meetingsList := defaultMeetingsList c nextId
      match failAt 1 with
      | some e => (c, [tasksList], some e)
      | none =>
        let transactionsList := defaultTransactionsList c nextId
        match failAt 2 with
        | some e => (c, [tasksList, meetingsList], some e)
        | none =>
          match failAt 3 with
          | some e => (c, [tasksList, meetingsList, transactionsList], some e)
          | none =>
            ({ c with defaultLists :=
                ⟨some tasksList.id, some meetingsList.id, some transactionsList.id⟩ }
            , [tasksList, meetingsList, transactionsList], none)
  else
    (c, [], none)

/-- The contact-creation operation as its caller sees it: `save()` a new
contact, which fires the post-save hook.  The hook's try/catch never
rethrows, so the only outcome the caller can observe is `ok` with the
document the hook left behind. -/
def createContact (c : Contact) (nextId : Nat) (failAt : Nat → Option String) :
    Except String Contact :=
  let r := contactPostSave c true nextId failAt
  Except.ok r.1

/-! ## Concrete sample inputs (used by the witness theorems below) -/

/-- A fixed consonant-draw stream (always index 0, i.e. `'B'`). -/
def rc0 : Nat → Fin 21 := fun _ => 0

/-- A fixed vowel-draw stream (always index 0, i.e. `'A'`). -/
def rv0 : Nat → Fin 5 := fun _ => 0

/-- A store in which every candidate code is reported as already taken. -/
def allTaken : List Char → Bool := fun _ => true

/-- A concrete share code (CVCVC, already uppercase). -/
def codeB : List Char := ['B','A','B','A','B']

/-- A requester account with no code, no grants, no records. -/
def uReq : User := { id := 11, shareCode := none, sharedWith := [], accessingViaCode := [] }

/-- A fresh contact with no default-list references. -/
def cAlice : Contact := { id := 1, owner := 2, name := "Alice".toList, defaultLists := ⟨none, none, none⟩ }

/-- A contact in the partial crash-recovery state: only `tasks` populated. -/
def cPartial : Contact := { id := 3, owner := 2, name := "Bob".toList, defaultLists := ⟨some 7, none, none⟩ }

/-- A store behaviour that fails the first persistence operation. -/
def failStore0 : Nat → Option String := fun k => if k = 0 then some "store write failed" else none

/-- A store behaviour that fails only the fourth persistence operation,
the `updateOne` writing the back-references. -/
def failStore3 : Nat → Option String := fun k => if k = 3 then some "store write failed" else none

/-- A store behaviour in which every operation succeeds. -/
def okStore : Nat → Option String := fun _ => none

/-- A list with the default alarm lead time of 30 minutes. -/
def lLead : ListDoc :=
  { id := 20, owner := 2, listType := ListType.task, name := "T".toList
  , description := [], color := [], isDefault := false, contactOwner := none
  , items := [], defaultAlarmTime := 30 }

/-- The same list with the lead-time setting zeroed out. -/
def lNoLead : ListDoc := { lLead with defaultAlarmTime := 0 }

/-- An item payload with a due date and one caller-supplied alarm. -/
def itemDue : Item :=
  { id := 5, title := "Call".toList, description := [], status := Status.pending
  , dueDate := some 7200000, completedAt := none
  , alarms := [{ triggerTime := 1, channel := AlarmChannel.email, message := [], isTriggered := false, triggeredAt := none }]
  , updatedAt := 0 }

/-- An item that already carries a completion timestamp. -/
def itemDone : Item :=
  { id := 1, title := "Done".toList, description := [], status := Status.completed
  , dueDate := none, completedAt := some 5, alarms := [], updatedAt := 0 }

/-- A list containing only `itemDone`. -/
def lDone : ListDoc := { lLead with id := 21, items := [itemDone] }

/-- The patch a caller sends to (re-)complete an item: only `status`. -/
def patchComplete : ItemPatch :=
  { title := none, description := none, status := some Status.completed, dueDate := none, completedAt := none }

/-! ## Helper lemmas -/

/-- `applyPatch` leaves `completedAt` untouched when the patch does not
carry a `completedAt` key. -/
theorem applyPatch_completedAt (it : Item) (p : ItemPatch)
    (hc : p.completedAt = none) : (applyPatch it p).completedAt = it.completedAt := by
  rcases p with ⟨pt, pd, ps, pdd, pc⟩
  simp only at hc
  subst hc
  cases pt <;> cases pd <;> cases ps <;> cases pdd <;> rfl

/-! ## C7: addItem alarm auto-derivation -/

/-- C7: for every list with a non-zero default alarm lead time and every
item payload with a due date, `addItem` stores the item with one
auto-derived alarm at `dueDate` minus the lead time (in minutes), appended
after all caller-supplied alarms; if the lead time is zero or the due date
is absent, the stored item carries exactly the caller-supplied alarms.  In
both cases the stored item is appended to the list's items. -/
theorem addItem_default_alarm (l : ListDoc) (d : Item) :
    (addItem l d).1.items = l.items ++ [(addItem l d).2] ∧
    (∀ t : Int, l.defaultAlarmTime ≠ 0 → d.dueDate = some t →
      (addItem l d).2.alarms = d.alarms ++
        [{ triggerTime := t - l.defaultAlarmTime * 60000
         , channel := AlarmChannel.notification
         , message := "Reminder: ".toList ++ d.title
         , isTriggered := false, triggeredAt := none }]) ∧
    ((l.defaultAlarmTime = 0 ∨ d.dueDate = none) →
      (addItem l d).2.alarms = d.alarms) := by
  refine ⟨rfl, ?_, ?_⟩
  · intro t h0 hd
    simp [addItem, hd, h0]
  · rintro (h | h) <;> simp [addItem, h]

/-- Witness for C7: the derived-alarm branch on `lLead`/`itemDue`
(lead time 30 min, due at 7 200 000 ms, one caller alarm kept in front),
and the no-derivation branch on `lNoLead`. -/
theorem addItem_default_alarm_witness :
    (addItem lLead itemDue).2.alarms = itemDue.alarms ++
      [{ triggerTime := 7200000 - 30 * 60000
       , channel := AlarmChannel.notification
       , message := "Reminder: ".toList ++ itemDue.title
       , isTriggered := false, triggeredAt := none }] ∧
    (addItem lNoLead itemDue).2.alarms = itemDue.alarms :=
  ⟨(addItem_default_alarm lLead itemDue).2.1 7200000 (by decide) rfl,
   (addItem_default_alarm lNoLead itemDue).2.2 (Or.inl rfl)⟩

/-! ## C8: updateItem completion stamping -/

/-- Counterexample to C8: `lDone` holds an item whose `completedAt` is 5;
re-completing it at time 99 leaves `completedAt = 5` — the claimed
re-stamping to the new time does not happen. -/
theorem updateItem_no_restamp_cex :
    (updateItem lDone 1 patchComplete 99).toOption.map (fun r => r.2.completedAt) =
      some (some 5) ∧
    (updateItem lDone 1 patchComplete 99).toOption.map (fun r => r.2.completedAt) ≠
      some (some 99) := by
  constructor
  · rfl
  · decide

/-- C8 (amended): `updateItem` with a status-to-completed patch stamps
`completedAt` only on the first transition: when the found item's
`completedAt` is unset it becomes `now`, and when it is already set it is
left unchanged. -/
theorem updateItem_first_completion_wins (l : ListDoc) (itemId : Nat)
    (p : ItemPatch) (now : Int) (it : Item)
    (hfind : l.items.find? (fun x => x.id == itemId) = some it)
    (hst : p.status = some Status.completed)
    (hc : p.completedAt = none) :
    (updateItem l itemId p now).toOption.map (fun r => r.2.completedAt) =
      some (match it.completedAt with
        | none => some now
        | some t => some t) := by
  have hap := applyPatch_completedAt it p hc
  simp only [updateItem, hfind]
  cases h : it.completedAt with
  | none =>
    rw [if_pos ⟨hst, by simp [hap, h]⟩]
    simp
    exact ⟨_, _, rfl, rfl⟩
  | some t =>
    rw [if_neg]
    · simp [hap, h]
      exact ⟨_, _, rfl, rfl⟩
    · rintro ⟨-, h2⟩
      simp only [hap, h] at h2
      exact Option.noConfusion h2

/-- Witness for C8 (amended): re-completing the already-completed item of
`lDone` at time 99 keeps `completedAt = 5`. -/
theorem updateItem_first_completion_wins_witness :
    (updateItem lDone 1 patchComplete 99).toOption.map (fun r => r.2.completedAt) =
      some (match itemDone.completedAt with
        | none => some (99 : Int)
        | some t => some t) :=
  updateItem_first_completion_wins lDone 1 patchComplete 99 itemDone (by decide) rfl rfl

/-! ## C9 / C10: generateWithPrefix -/

/-- The fill loop produces exactly `n` characters. -/
theorem fillAlternating_length (rc : Nat → Fin 21) (rv : Nat → Fin 5) :
    ∀ n i, (fillAlternating rc rv i n).length = n := by
  intro n
  induction n with
  | zero => intro i; rfl
  | succ m ih => intro i; simp [fillAlternating, ih]

/-- Position `j` of the fill starting at parity index `i` belongs to the
consonant alphabet when `i + j` is even and to the vowel alphabet
otherwise. -/
theorem fillAlternating_getD_mem (rc : Nat → Fin 21) (rv : Nat → Fin 5) :
    ∀ n i j, j < n →
      ((if (i + j) % 2 = 0 then consonants else vowels).contains
        ((fillAlternating rc rv i n).getD j ' ')) = true := by
  intro n
  induction n with
  | zero => intro i j hj; omega
  | succ m ih =>
    intro i j hj
    cases j with
    | zero =>
      simp only [fillAlternating, List.getD_cons_zero, Nat.add_zero]
      split
      · simp [List.elem_iff]
      · simp [List.elem_iff]
    | succ k =>
      have h2 : (i + (k + 1)) % 2 = ((i + 1) + k) % 2 := by ring_nf
      simp only [fillAlternating, List.getD_cons_succ, h2]
      exact ih (i + 1) k (by omega)

/-- C9: `generateWithPrefix` fails iff `5 - len(prefix) < 3` (the prefix is
longer than 2 characters); for every prefix of length at most 2 it returns
a 5-character code beginning with the uppercased prefix whose remaining
positions alternate consonant/vowel starting from a consonant. -/
theorem generateWithPrefix_spec (pfx : List Char) (rc : Nat → Fin 21)
    (rv : Nat → Fin 5) :
    ((∃ e, generateWithPrefix pfx rc rv = Except.error e) ↔
      (5 : Int) - pfx.length < 3) ∧
    (pfx.length ≤ 2 →
      ∃ s, generateWithPrefix pfx rc rv = Except.ok s ∧
        s.length = 5 ∧
        s.take pfx.length = pfx.map Char.toUpper ∧
        ∀ i, i < 5 - pfx.length →
          ((if i % 2 = 0 then consonants else vowels).contains
            (s.getD (pfx.length + i) ' ')) = true) := by
  constructor
  · constructor
    · rintro ⟨e, he⟩
      by_contra hlt
      simp only [generateWithPrefix, if_neg hlt] at he
      exact Except.noConfusion he
    · intro hlt
      exact ⟨"Prefix too long, must leave at least 3 characters",
        by simp only [generateWithPrefix, if_pos hlt]⟩
  · intro hle
    have hnot : ¬ ((5 : Int) - pfx.length < 3) := by
      have : (pfx.length : Int) ≤ 2 := by exact_mod_cast hle
      omega
    refine ⟨pfx.map Char.toUpper ++ fillAlternating rc rv 0 (5 - pfx.length),
      by simp only [generateWithPrefix, if_neg hnot], ?_, ?_, ?_⟩
    · simp [fillAlternating_length]
      omega
    · have hlen : (pfx.map Char.toUpper).length = pfx.length := by simp
      rw [← hlen, List.take_left]
    · intro i hi
      have hlen : (pfx.map Char.toUpper).length = pfx.length := by simp
      rw [List.getD_append_right _ _ _ _ (by omega : (pfx.map Char.toUpper).length ≤ pfx.length + i)]
      rw [hlen]
      have : pfx.length + i - pfx.length = i := by omega
      rw [this]
      have := fillAlternating_getD_mem rc rv (5 - pfx.length) 0 i hi
      simpa using this

/-- Witness for C9: the one-character prefix `"K"` is accepted and yields a
5-character code starting with `K` whose tail alternates consonant/vowel. -/
theorem generateWithPrefix_spec_witness :
    ∃ s, generateWithPrefix ['K'] rc0 rv0 = Except.ok s ∧
      s.length = 5 ∧
      s.take (['K'] : List Char).length = (['K'] : List Char).map Char.toUpper ∧
      ∀ i, i < 5 - (['K'] : List Char).length →
        ((if i % 2 = 0 then consonants else vowels).contains
          (s.getD ((['K'] : List Char).length + i) ' ')) = true :=
  (generateWithPrefix_spec ['K'] rc0 rv0).2 (by decide)

/-- C10: the accepted prefix `"AB"` starts with a vowel where the CVCVC
grammar requires a consonant, so every code `generateWithPrefix` can return
for it fails `isValidCode`. -/
theorem generateWithPrefix_invalid_grammar :
    ∃ pfx : List Char, pfx.length ≤ 2 ∧
      ∀ (rc : Nat → Fin 21) (rv : Nat → Fin 5), ∃ s,
        generateWithPrefix pfx rc rv = Except.ok s ∧ isValidCode s = false := by
  refine ⟨['A','B'], by decide, ?_⟩
  intro rc rv
  exact ⟨_, rfl, rfl⟩

/-! ## C1: retry bounds of the two unique-code loops -/

/-- Against a store where every code is taken, `generateUniqueCodeAux`
starting at any attempt count `≤ 100` exhausts the bound: it errors after
exactly 100 generation attempts. -/
theorem generateUniqueCodeAux_allTaken (rc : Nat → Fin 21) (rv : Nat → Fin 5) :
    ∀ k a, 100 - a = k → a ≤ 100 →
      generateUniqueCodeAux allTaken rc rv a = (Except.error exhaustedMsg, 100) := by
  intro k
  induction k with
  | zero =>
    intro a h1 h2
    have ha : a = 100 := by omega
    subst ha
    unfold generateUniqueCodeAux
    simp
  | succ n ih =>
    intro a h1 h2
    have ha : a < 100 := by omega
    unfold generateUniqueCodeAux
    rw [if_pos ha]
    simp only [allTaken, if_pos rfl]
    exact ih (a + 1) (by omega) (by omega)

/-- Against a store where every code is taken, the unbounded retry loop of
`User.generateShareCode` never exits, whatever the draws: after any number
of iterations it has produced neither a code nor an error. -/
theorem generateShareCodeLoop_allTaken (rc : Nat → Fin 21) (rv : Nat → Fin 5) :
    ∀ fuel attempt,
      generateShareCodeLoop allTaken rc rv attempt fuel = none := by
  intro fuel
  induction fuel with
  | zero => intro attempt; rfl
  | succ n ih =>
    intro attempt
    simp only [generateShareCodeLoop, allTaken, if_pos rfl]
    exact ih (attempt + 1)

/-- C1 (code evaluated at the failing store): when every generated candidate
is reported as taken, the utility `generateUniqueCode` terminates with its
exhaustion error after exactly 100 generation attempts, but the loop of
`User.generateShareCode` — the method `shareWith` actually calls — has no
attempt bound: it is still running after 101 iterations (and after any
number of iterations), and it has no failure outcome at all. -/
theorem generateUniqueCode_bounded_shareCode_unbounded (rc : Nat → Fin 21)
    (rv : Nat → Fin 5) :
    generateUniqueCode allTaken rc rv = (Except.error exhaustedMsg, 100) ∧
    generateShareCodeLoop allTaken rc rv 0 101 = none ∧
    (∀ fuel attempt, generateShareCodeLoop allTaken rc rv attempt fuel = none) :=
  ⟨generateUniqueCodeAux_allTaken rc rv 100 0 rfl (by omega),
   generateShareCodeLoop_allTaken rc rv 101 0,
   fun fuel attempt => generateShareCodeLoop_allTaken rc rv fuel attempt⟩

/-! ## C2: the hook provisions the three default lists -/

/-- C2: when every store operation succeeds, the contact-creation hook
leaves all three default-list references non-null, pointing in order at the
three lists it persisted, and each of those lists is a default list of the
right category, scoped to the contact, owned by the contact's owner, with
the category-derived name. -/
theorem contactPostSave_creates_default_lists (c : Contact) (nextId : Nat)
    (failAt : Nat → Option String) (hok : ∀ k, failAt k = none) :
    ∃ t m tr : ListDoc,
      (contactPostSave c true nextId failAt).2.1 = [t, m, tr] ∧
      (contactPostSave c true nextId failAt).1.defaultLists =
        ⟨some t.id, some m.id, some tr.id⟩ ∧
      (contactPostSave c true nextId failAt).2.2 = none ∧
      (t.isDefault = true ∧ t.contactOwner = some c.id ∧ t.listType = ListType.task ∧
        t.owner = c.owner ∧ t.name = c.name ++ " - Tasks".toList) ∧
      (m.isDefault = true ∧ m.contactOwner = some c.id ∧ m.listType = ListType.meeting ∧
        m.owner = c.owner ∧ m.name = c.name ++ " - Meetings".toList) ∧
      (tr.isDefault = true ∧ tr.contactOwner = some c.id ∧ tr.listType = ListType.transaction ∧
        tr.owner = c.owner ∧ tr.name = c.name ++ " - Transactions".toList) := by
  refine ⟨defaultTasksList c nextId, defaultMeetingsList c nextId,
    defaultTransactionsList c nextId, ?_, ?_, ?_,
    ⟨rfl, rfl, rfl, rfl, rfl⟩, ⟨rfl, rfl, rfl, rfl, rfl⟩, ⟨rfl, rfl, rfl, rfl, rfl⟩⟩ <;>
  simp only [contactPostSave, hok 0, hok 1, hok 2, hok 3, true_or, if_true]

/-- Witness for C2: creating `cAlice` against the always-succeeding store. -/
theorem contactPostSave_creates_default_lists_witness :
    ∃ t m tr : ListDoc,
      (contactPostSave cAlice true 40 okStore).2.1 = [t, m, tr] ∧
      (contactPostSave cAlice true 40 okStore).1.defaultLists =
        ⟨some t.id, some m.id, some tr.id⟩ ∧
      (contactPostSave cAlice true 40 okStore).2.2 = none ∧
      (t.isDefault = true ∧ t.contactOwner = some cAlice.id ∧ t.listType = ListType.task ∧
        t.owner = cAlice.owner ∧ t.name = cAlice.name ++ " - Tasks".toList) ∧
      (m.isDefault = true ∧ m.contactOwner = some cAlice.id ∧ m.listType = ListType.meeting ∧
        m.owner = cAlice.owner ∧ m.name = cAlice.name ++ " - Meetings".toList) ∧
      (tr.isDefault = true ∧ tr.contactOwner = some cAlice.id ∧ tr.listType = ListType.transaction ∧
        tr.owner = cAlice.owner ∧ tr.name = cAlice.name ++ " - Transactions".toList) :=
  contactPostSave_creates_default_lists cAlice 40 okStore (fun _ => rfl)

/-! ## C3: re-invocation on partially populated references -/

/-- Counterexample to C3: re-saving `cPartial` (only `tasks` populated,
`isNew = false`) creates nothing — `meetings` and `transactions` stay
null and no list document is persisted, instead of the claimed creation of
exactly the missing two lists. -/
theorem contactPostSave_partial_refs_noop_cex :
    (contactPostSave cPartial false 40 okStore).2.1 = [] ∧
    (contactPostSave cPartial false 40 okStore).1.defaultLists.meetings = none ∧
    (contactPostSave cPartial false 40 okStore).1.defaultLists.transactions = none ∧
    (contactPostSave cPartial false 40 okStore).1.defaultLists.tasks = some 7 := by
  refine ⟨rfl, rfl, rfl, rfl⟩

/-- C3 (amended): re-invoking the hook on an existing contact is a no-op
whenever at least one of the three default-list references is populated —
in the fully-populated case (a no-op, as claimed) but also in the partial
crash-recovery case, where the missing lists are *not* created.  The hook
only recreates lists when all three references are null. -/
theorem contactPostSave_existing_refs_noop (c : Contact) (nextId : Nat)
    (failAt : Nat → Option String)
    (href : c.defaultLists.tasks ≠ none ∨ c.defaultLists.meetings ≠ none ∨
      c.defaultLists.transactions ≠ none) :
    contactPostSave c false nextId failAt = (c, [], none) := by
  rw [contactPostSave, if_neg]
  rintro (h | ⟨h1, h2, h3⟩)
  · exact Bool.noConfusion h
  · rcases href with h | h | h
    · exact h h1
    · exact h h2
    · exact h h3

/-- Witness for C3 (amended): re-saving `cPartial` changes nothing. -/
theorem contactPostSave_existing_refs_noop_witness :
    contactPostSave cPartial false 40 okStore = (cPartial, [], none) :=
  contactPostSave_existing_refs_noop cPartial 40 okStore
    (Or.inl (by simp [cPartial]))

/-! ## C6: persistence failures during the hook are swallowed -/

/-- Counterexample to C6: against a store whose first write fails, creating
`cAlice` still reports success to the caller, with the contact document
unchanged (all three default-list references null); the failure is merely
recorded by the hook's catch block, never propagated. -/
theorem createContact_swallows_store_failure_cex :
    createContact cAlice 40 failStore0 = Except.ok cAlice ∧
    (contactPostSave cAlice true 40 failStore0).2.2 = some "store write failed" := by
  exact ⟨rfl, rfl⟩

/-- C6 (amended): when any of the hook's four persistence operations —
the three default-list saves (ops 0-2) or the back-reference `updateOne`
(op 3) — is the first to fail, the hook catches the error (it surfaces
only in the logged-error slot) and the contact-creation operation still
returns success with the contact document unchanged. -/
theorem createContact_ok_despite_failure (c : Contact) (nextId : Nat)
    (failAt : Nat → Option String) (k : Nat) (e : String)
    (hk : k ≤ 3) (hfail : failAt k = some e)
    (hbefore : ∀ j < k, failAt j = none) :
    createContact c nextId failAt = Except.ok c ∧
    (contactPostSave c true nextId failAt).2.2 = some e := by
  have hcases : k = 0 ∨ k = 1 ∨ k = 2 ∨ k = 3 := by omega
  rcases hcases with rfl | rfl | rfl | rfl
  · constructor <;>
      simp only [createContact, contactPostSave, true_or, if_true, hfail]
  · have h0 := hbefore 0 (by omega)
    constructor <;>
      simp only [createContact, contactPostSave, true_or, if_true, h0, hfail]
  · have h0 := hbefore 0 (by omega)
    have h1 := hbefore 1 (by omega)
    constructor <;>
      simp only [createContact, contactPostSave, true_or, if_true, h0, h1, hfail]
  · have h0 := hbefore 0 (by omega)
    have h1 := hbefore 1 (by omega)
    have h2 := hbefore 2 (by omega)
    constructor <;>
      simp only [createContact, contactPostSave, true_or, if_true, h0, h1, h2, hfail]

/-- Witness for C6 (amended): `failStore3` fails only the back-reference
`updateOne` (op 3, after all three lists were persisted); creation of
`cAlice` still reports success with the references unset. -/
theorem createContact_ok_despite_failure_witness :
    createContact cAlice 40 failStore3 = Except.ok cAlice ∧
    (contactPostSave cAlice true 40 failStore3).2.2 = some "store write failed" :=
  createContact_ok_despite_failure cAlice 40 failStore3 3 "store write failed"
    (by decide) rfl (by decide)

/-! ## World-model lemmas for the sharing protocol -/

/-- In a world with no duplicate ids, two members sharing an id are equal. -/
theorem user_eq_of_mem_nodup :
    ∀ (w : World), (w.map User.id).Nodup →
      ∀ (x y : User), x ∈ w → y ∈ w → x.id = y.id → x = y := by
  intro w
  induction w with
  | nil => intro _ x y hx; cases hx
  | cons a as ih =>
    intro hnodup x y hx hy h
    simp only [List.map_cons, List.nodup_cons] at hnodup
    rcases List.mem_cons.mp hx with rfl | hx'
    · rcases List.mem_cons.mp hy with rfl | hy'
      · rfl
      · exact absurd (h ▸ List.mem_map_of_mem User.id hy') hnodup.1
    · rcases List.mem_cons.mp hy with rfl | hy'
      · exact absurd (h ▸ List.mem_map_of_mem User.id hx') hnodup.1
      · exact ih hnodup.2 x y hx' hy' h

/-- A member of a world with no duplicate ids is found by its own id. -/
theorem getUser_of_mem_nodup (x : User) :
    ∀ (w : World), (w.map User.id).Nodup → x ∈ w → getUser w x.id = some x := by
  intro w
  induction w with
  | nil => intro _ hx; cases hx
  | cons a as ih =>
    intro hnodup hx
    by_cases h : a.id = x.id
    · have hax : a = x :=
        user_eq_of_mem_nodup (a :: as) hnodup a x (List.mem_cons_self a as) hx h
      rw [getUser, List.find?_cons_of_pos _ (by simp [h])]
      rw [hax]
    · rw [getUser, List.find?_cons_of_neg _ (by simp [h])]
      have hx' : x ∈ as := by
        rcases List.mem_cons.mp hx with rfl | hx'
        · exact absurd rfl h
        · exact hx'
      simp only [List.map_cons, List.nodup_cons] at hnodup
      exact ih hnodup.2 hx'

/-- `shareWith` on an owner that already holds a share code: the
code-generation branch is skipped; a grant is appended unless present. -/
theorem shareWith_hasCode (w : World) (owner : User) (tid : Nat)
    (lvl : AccessLevel) (rc : Nat → Fin 21) (rv : Nat → Fin 5) (fuel : Nat)
    (c : List Char) (hc : owner.shareCode = some c) :
    shareWith w owner tid lvl rc rv fuel =
      (if owner.sharedWith.any (fun share => share.userId == tid) then
        some (w, owner, c)
      else
        some (updateUser w { owner with sharedWith := owner.sharedWith ++ [⟨tid, lvl⟩] },
          { owner with sharedWith := owner.sharedWith ++ [⟨tid, lvl⟩] }, c)) := by
  simp only [shareWith, hc]

/-- `accessViaCode` when the presented code resolves to `owner`: the
record/grant appends of the source, spelled out. -/
theorem accessViaCode_found (w : World) (requester : User) (code : List Char)
    (rc : Nat → Fin 21) (rv : Nat → Fin 5) (fuel : Nat) (owner : User)
    (hfind : findByShareCode w (code.map Char.toUpper) = some owner)
    (hOc : owner.shareCode = some (code.map Char.toUpper)) :
    accessViaCode w requester code rc rv fuel =
      (let up := code.map Char.toUpper
       let alreadyAccessing := requester.accessingViaCode.any (fun a => a.code == up)
       let requester1 :=
         if alreadyAccessing then requester
         else { requester with accessingViaCode := requester.accessingViaCode ++ [⟨up, owner.id⟩] }
       let w1 := if alreadyAccessing then w else updateUser w requester1
       if owner.sharedWith.any (fun share => share.userId == requester.id) then
         (w1, requester1, Except.ok owner)
       else
         let owner2 := { owner with sharedWith := owner.sharedWith ++ [⟨requester.id, AccessLevel.view⟩] }
         (updateUser w1 owner2, requester1, Except.ok owner2)) := by
  simp only [accessViaCode, hfind, shareWith_hasCode _ _ _ _ _ _ _ _ hOc]
  cases halready : owner.sharedWith.any (fun share => share.userId == requester.id) <;>
    simp [halready]

/-! ## C5: redeem fails with CodeNotFound iff the code resolves nowhere -/

/-- C5: `accessViaCode` fails with the `CodeNotFound` error
(`'Invalid share code'`) exactly when no account's share code equals the
presented code normalized to uppercase, and in that case neither the store
nor the requester document is mutated. -/
theorem accessViaCode_codeNotFound_iff (w : World) (requester : User)
    (code : List Char) (rc : Nat → Fin 21) (rv : Nat → Fin 5) (fuel : Nat) :
    ((accessViaCode w requester code rc rv fuel).2.2 =
        Except.error "Invalid share code" ↔
      ∀ u ∈ w, u.shareCode ≠ some (code.map Char.toUpper)) ∧
    ((∀ u ∈ w, u.shareCode ≠ some (code.map Char.toUpper)) →
      (accessViaCode w requester code rc rv fuel).1 = w ∧
      (accessViaCode w requester code rc rv fuel).2.1 = requester) := by
  have hiff : findByShareCode w (code.map Char.toUpper) = none ↔
      ∀ u ∈ w, u.shareCode ≠ some (code.map Char.toUpper) := by
    rw [findByShareCode, List.find?_eq_none]
    constructor
    · intro h u hu
      simpa using h u hu
    · intro h u hu
      simpa using h u hu
  constructor
  · constructor
    · intro herr
      cases hfind : findByShareCode w (code.map Char.toUpper) with
      | none => exact hiff.mp hfind
      | some owner =>
        exfalso
        have hOc : owner.shareCode = some (code.map Char.toUpper) := by
          simpa using List.find?_some hfind
        rw [accessViaCode_found w requester code rc rv fuel owner hfind hOc] at herr
        by_cases halready : owner.sharedWith.any (fun share => share.userId == requester.id)
        · simp [halready] at herr
        · simp [halready] at herr
    · intro hall
      have hfind := hiff.mpr hall
      simp only [accessViaCode, hfind]
  · intro hall
    have hfind := hiff.mpr hall
    constructor <;> simp only [accessViaCode, hfind]

/-- Witness for C5: against the empty world (no account holds any code),
redeeming `codeB` errors with `CodeNotFound` and leaves both the world and
the requester document unchanged. -/
theorem accessViaCode_codeNotFound_iff_witness :
    (accessViaCode [] uReq codeB rc0 rv0 0).2.2 = Except.error "Invalid share code" ∧
    (accessViaCode [] uReq codeB rc0 rv0 0).1 = [] ∧
    (accessViaCode [] uReq codeB rc0 rv0 0).2.1 = uReq := by
  have h := accessViaCode_codeNotFound_iff [] uReq codeB rc0 rv0 0
  have hall : ∀ u ∈ ([] : World), u.shareCode ≠ some (codeB.map Char.toUpper) := by
    simp
  exact ⟨h.1.mpr hall, (h.2 hall).1, (h.2 hall).2⟩

/-! ## C4: redemption is idempotent and bidirectional -/

end ContactManager
